import Mathlib

/-!
# CoreSession (src/core/coresession.cpp): a shallow embedding

The session hub of the core: the registry of per-network `Server` handles,
the message pipeline (`recvMessageFromServer`), chunked backlog delivery
(`sendBacklog`), the session key/value store and the session snapshot.

Conventions of the embedding

* Qt signals that the session emits, and the calls into collaborators whose
  order matters, are appended to a trace (`CoreSession.trace`).
* `Q_ASSERT(c)` stops the handler when `c` is false (`Outcome.aborted`,
  carrying the state reached so far), but only in a build that compiles
  assertions in: with `QT_NO_DEBUG` the statement is empty. A handler whose
  course depends on that takes the build as the parameter `assertions`.
* Calling through a null handle stops the handler in every build.
* `Storage` (storage.h) is an external collaborator: its operations are taken
  as parameters over an arbitrary storage state `σ`.
* `servers` is a `QHash<uint, Server*>` written only through `operator[]`, a
  finite map with one handle per key: an `AList`.
* `mutex.lock()` / `mutex.unlock()` have no effect in the single-threaded
  model and are left out.
-/

namespace Quassel

/-! ## Value types -/

abbrev UserId := Nat
abbrev NetworkId := Nat
abbrev MsgId := Nat

/-- Modelled from the spec: the declaration of `BufferInfo` (bufferinfo.h) is
not part of the sources; a buffer identifies a conversation target, a network
plus a channel/nick/status scope, and is handed out by storage. -/
structure BufferInfo where
  uid : Nat
  networkId : NetworkId
  buffer : String
  deriving DecidableEq, Repr

/-- Modelled from the spec: the declaration of `Message` (message.h) is not part
of the sources; the fields are those of the constructor call
`Message(buf, type, text, sender, flags)` plus the persistent id set by
`setMsgId`. A freshly constructed message has id 0. -/
structure Message where
  buffer : BufferInfo
  type : Nat
  text : String
  sender : String
  flags : Nat
  msgId : MsgId
  deriving DecidableEq, Repr

/-- The call `Message msg(buf, type, text, sender, flags)`. -/
def Message.new (buf : BufferInfo) (type : Nat) (text sender : String) (flags : Nat) : Message :=
  { buffer := buf, type := type, text := text, sender := sender, flags := flags, msgId := 0 }

/-- The call `msg.setMsgId(id)`. -/
def Message.setMsgId (msg : Message) (id : MsgId) : Message :=
  { msg with msgId := id }

/-- The part of `QVariant` the session uses: the invalid variant, the basic
kinds, date-times (kept as their ISO text), lists, maps (`QVariantMap`, an
association list read by first match) and the two registered user types. -/
inductive QVariant where
  | invalid
  | bool (b : Bool)
  | int (i : Int)
  | uint (n : Nat)
  | string (s : String)
  | dateTime (iso : String)
  | list (l : List QVariant)
  | map (m : List (String × QVariant))
  | bufferInfo (b : BufferInfo)
  | message (m : Message)

instance : Inhabited QVariant := ⟨QVariant.invalid⟩

abbrev QVariantList := List QVariant
abbrev QVariantMap := List (String × QVariant)

/-- The test `v.type() == QVariant::DateTime`. -/
def QVariant.isDateTime : QVariant → Bool
  | .dateTime _ => true
  | _ => false

/-- The conversion `v.toMap()`: the map itself, or an empty map. -/
def QVariant.toMap : QVariant → QVariantMap
  | .map m => m
  | _ => []

/-- The conversion `v.toList()`: the list itself, or an empty list. -/
def QVariant.toList : QVariant → QVariantList
  | .list l => l
  | _ => []

/-- The conversion `v.toString()`: strings as they are, numbers and booleans
printed, an empty string for everything that does not convert. -/
def QVariant.toString : QVariant → String
  | .string s => s
  | .int i => ToString.toString i
  | .uint n => ToString.toString n
  | .bool b => if b then "true" else "false"
  | .dateTime iso => iso
  | _ => ""

/-- The conversion `v.toInt()` to a 32-bit signed integer; 0 for everything that
does not convert. -/
def QVariant.toInt : QVariant → Int
  | .int i => i
  | .uint n => ((n : Int) + 2 ^ 31) % 2 ^ 32 - 2 ^ 31
  | .bool b => if b then 1 else 0
  | .string s => (s.trim.toInt?).getD 0
  | _ => 0

namespace QVariantMap

/-- The test `map.contains(key)`. -/
def contains (m : QVariantMap) (key : String) : Bool :=
  (m.lookup key).isSome

/-- The read `map[key]`: the stored value, or a default-constructed (invalid)
variant. -/
def value (m : QVariantMap) (key : String) : QVariant :=
  (m.lookup key).getD QVariant.invalid

/-- The write `map[key] = data`: replaces the value of an existing key, adds
the key otherwise. -/
def insert : QVariantMap → String → QVariant → QVariantMap
  | [], key, data => [(key, data)]
  | (k, v) :: rest, key, data =>
    if k = key then (key, data) :: rest else (k, v) :: insert rest key data

end QVariantMap

/-! ## QSettings: the durable key/value store -/

/-- The durable settings store behind `QSettings` (Qt, external), as an ideal
store: values are addressed by a group and a key inside the group, keys are
taken literally and a value is read back as it was written. -/
structure QSettings where
  entries : List ((String × String) × QVariant)

namespace QSettings

/-- The call `s.setValue(key, data)` inside group `group`. -/
def setValue (s : QSettings) (group key : String) (data : QVariant) : QSettings :=
  ⟨((group, key), data) :: s.entries.filter (fun e => decide (e.1 ≠ (group, key)))⟩

/-- The call `s.allKeys()` inside group `group`. -/
def allKeys (s : QSettings) (group : String) : List String :=
  (s.entries.filter (fun e => decide (e.1.1 = group))).map (fun e => e.1.2)

/-- The call `s.value(key)` inside group `group`. -/
def value (s : QSettings) (group key : String) : QVariant :=
  (s.entries.lookup (group, key)).getD QVariant.invalid

end QSettings

/-- The group `QString("SessionData/%1").arg(user)`. -/
def sessionDataGroup (user : UserId) : String :=
  "SessionData/" ++ ToString.toString user

/-! ## Collaborators -/

/-- The `Server` handle (server.h, external): what the session can observe of
it are the constructor arguments and whether it was wired and started. -/
structure Server where
  user : UserId
  networkId : NetworkId
  network : String
  previousState : QVariant
  attached : Bool
  started : Bool

/-- The call `new Server(userId(), networkid, network, previousState)`. -/
def Server.new (user : UserId) (networkid : NetworkId) (network : String)
    (previousState : QVariant) : Server :=
  { user := user, networkId := networkid, network := network,
    previousState := previousState, attached := false, started := false }

/-- The call `server->networkName()`. -/
def Server.networkName (server : Server) : String := server.network

/-- The call `server->start()`. -/
def Server.start (server : Server) : Server := { server with started := true }

/-- The storage collaborator (storage.h, external), over a storage state `σ`. -/
structure Storage (σ : Type) where
  getNetworkId : σ → UserId → String → NetworkId
  getBufferInfo : σ → UserId → String → String → BufferInfo × σ
  logMessage : σ → Message → MsgId × σ
  requestBuffers : σ → UserId → List BufferInfo
  requestMsgs : σ → BufferInfo → Int → Int → List Message

/-- The constants `Message::PrivMsg` and `Message::Self` (message.h, not part
of the sources), taken as parameters. -/
structure MessageFlags where
  PrivMsg : Nat
  Self : Nat

/-- Modelled from the spec: `nickFromMask` (util.cpp) is not part of the
sources; the bare identity of a sender mask such as `alice!foo@bar` is the part
before the first `!`. -/
def nickFromMask (mask : String) : String :=
  String.mk (mask.toList.takeWhile (fun c => c != '!'))

/-! ## Signals and the session state -/

/-- What the session emits or calls, in order; a call into storage is recorded
with the answer storage gave. -/
inductive Event where
  | connectToIrc (network : String)
  | displayMsg (msg : Message)
  | backlogData (id : BufferInfo) (log : QVariantList) (final : Bool)
  | sessionDataChanged (key : String) (data : QVariant)
  | sessionDataChangedKey (key : String)
  | qWarning (network : String)
  | getBufferInfo (user : UserId) (network buffer : String) (result : BufferInfo)
  | logMessage (msg : Message) (result : MsgId)
  | deleteLater (server : Server)

/-- The state of a `CoreSession`: its members, the durable settings and the
storage state it works against, and the trace of what it emitted. -/
structure CoreSession (σ : Type) where
  user : UserId
  servers : AList (fun _ : NetworkId => Server)
  sessionData : QVariantMap
  settings : QSettings
  storage : σ
  trace : List Event

/-- How a handler ends: it returns, or a `Q_ASSERT` fails and it stops. -/
inductive Outcome (σ : Type) where
  | returned (s : CoreSession σ)
  | aborted (s : CoreSession σ)

/-- The state a handler ended in. -/
def Outcome.state {σ : Type} : Outcome σ → CoreSession σ
  | .returned s => s
  | .aborted s => s

/-- Whether the handler returned normally. -/
def Outcome.isReturned {σ : Type} : Outcome σ → Bool
  | .returned _ => true
  | .aborted _ => false

/-- Sequencing: the next statement runs only when the previous one returned. -/
def Outcome.andThen {σ : Type} (o : Outcome σ) (f : CoreSession σ → Outcome σ) : Outcome σ :=
  match o with
  | .returned s => f s
  | .aborted s => .aborted s

namespace CoreSession

variable {σ : Type}

/-- The statement `emit e`. -/
def emit (s : CoreSession σ) (e : Event) : CoreSession σ :=
  { s with trace := s.trace ++ [e] }

/-- The constructor `CoreSession::CoreSession`: every key of the user's
`SessionData` group is read into `sessionData`. -/
def new (uid : UserId) (storage : σ) (settings : QSettings) : CoreSession σ :=
  { user := uid
    servers := ∅
    sessionData :=
      (settings.allKeys (sessionDataGroup uid)).foldl
        (fun m key => QVariantMap.insert m key (settings.value (sessionDataGroup uid) key)) []
    settings := settings
    storage := storage
    trace := [] }

/-- The getter `CoreSession::userId`. -/
def userId (s : CoreSession σ) : UserId := s.user

/-- The function `CoreSession::getNetworkId`. -/
def getNetworkId (st : Storage σ) (s : CoreSession σ) (net : String) : NetworkId :=
  st.getNetworkId s.storage s.user net

/-- The function `CoreSession::storeSessionData`. -/
def storeSessionData (s : CoreSession σ) (key : String) (data : QVariant) : Outcome σ :=
  let s1 := { s with sessionData := QVariantMap.insert s.sessionData key data }
  let s2 := { s1 with settings := s1.settings.setValue (sessionDataGroup s1.user) key data }
  .returned ((s2.emit (Event.sessionDataChanged key data)).emit (Event.sessionDataChangedKey key))

/-- The function `CoreSession::retrieveSessionData`. -/
def retrieveSessionData (s : CoreSession σ) (key : String) (dflt : QVariant) : QVariant :=
  if !QVariantMap.contains s.sessionData key then dflt
  else QVariantMap.value s.sessionData key

/-- The function `CoreSession::attachServer`: the handle is wired to the
session and to the signal proxy. -/
def attachServer (server : Server) : Server := { server with attached := true }

/-- The function `CoreSession::connectToNetwork`. The handle is a pointer, so
the registry entry shows it wired and started. -/
def connectToNetwork (st : Storage σ) (s : CoreSession σ) (network : String)
    (previousState : QVariant) : Outcome σ :=
  let networkid := getNetworkId st s network
  if networkid = 0 then
    .returned (s.emit (Event.qWarning network))
  else
    let s1 :=
      if networkid ∉ s.servers then
        let server := Server.new s.userId networkid network previousState
        { s with servers := s.servers.insert networkid (attachServer server).start }
      else s
    .returned (s1.emit (Event.connectToIrc network))

/-- The body of the `foreach` loop of `CoreSession::restoreState`, run on the
entry `v` when the loop got that far. -/
def restoreStep (st : Storage σ) (acc : Outcome σ) (v : QVariant) : Outcome σ :=
  acc.andThen fun s =>
    let m := v.toMap
    let net := (QVariantMap.value m "Network").toString
    if net ≠ "" then connectToNetwork st s net (QVariantMap.value m "State")
    else .returned s

/-- The function `CoreSession::restoreState`. -/
def restoreState (st : Storage σ) (s : CoreSession σ) (previousState : QVariant) : Outcome σ :=
  let state := previousState.toMap
  if QVariantMap.contains state "ConnectedServers" then
    (QVariantMap.value state "ConnectedServers").toList.foldl (restoreStep st) (.returned s)
  else .returned s

/-- The function `CoreSession::serverDisconnected`; `servers.take` removes the
entry and hands back its handle. For an id that is not registered the handler
stops in every build: at the first assertion, or without it at the call of
`deleteLater` through the null handle that `take` hands back. The second
assertion cannot fail. -/
def serverDisconnected (s : CoreSession σ) (networkid : NetworkId) : Outcome σ :=
  if networkid ∉ s.servers then .aborted s
  else
    let taken := s.servers.lookup networkid
    let s1 := { s with servers := s.servers.erase networkid }
    let s2 : CoreSession σ :=
      match taken with
      | some server => s1.emit (Event.deleteLater server)
      | none => s1
    if networkid ∈ s2.servers then .aborted s2 else .returned s2

/-- The function `CoreSession::recvMessageFromServer`; `sender_` is the handle
that emitted the signal (`this->sender()`), if it is a `Server`, and
`assertions` says whether the build compiles `Q_ASSERT` in. Without a handle
the handler stops in every build, at `Q_ASSERT(s)` or at `s->networkName()`.
`Q_ASSERT(msg.msgId())` is the only check between `logMessage` and
`emit displayMsg(msg)`: there is no `if`. -/
def recvMessageFromServer (st : Storage σ) (fl : MessageFlags) (assertions : Bool)
    (s : CoreSession σ) (sender_ : Option Server) (type : Nat)
    (target text sender : String) (flags : Nat) : Outcome σ :=
  match sender_ with
  | none => .aborted s
  | some srv =>
    let key :=
      if (flags &&& fl.PrivMsg ≠ 0) ∧ ¬ (flags &&& fl.Self ≠ 0) then nickFromMask sender
      else target
    let r := st.getBufferInfo s.storage s.user srv.networkName key
    let s1 := { s with storage := r.2 }.emit (Event.getBufferInfo s.user srv.networkName key r.1)
    let msg := Message.new r.1 type text sender flags
    let l := st.logMessage s1.storage msg
    let s2 := { s1 with storage := l.2 }.emit (Event.logMessage msg l.1)
    let msg1 := msg.setMsgId l.1
    if assertions = true ∧ msg1.msgId = 0 then .aborted s2
    else .returned (s2.emit (Event.displayMsg msg1))

/-- The function `CoreSession::sessionState`. -/
def sessionState (st : Storage σ) (s : CoreSession σ) : QVariant :=
  let bufs : QVariantList := (st.requestBuffers s.storage s.user).map QVariant.bufferInfo
  let v : QVariantMap := QVariantMap.insert [] "Buffers" (QVariant.list bufs)
  let v := QVariantMap.insert v "SessionData" (QVariant.map s.sessionData)
  let networks : QVariantList := s.servers.keys.map QVariant.uint
  let v := QVariantMap.insert v "Networks" (QVariant.list networks)
  QVariant.map v

/-- The loop of `CoreSession::sendBacklog` from index `i` on: `rest` is what is
left of `msglist` (`count` entries in all), `log` the package being filled. -/
def sendBacklogLoop (id : BufferInfo) (count : Nat) :
    List Message → Nat → QVariantList → CoreSession σ → QVariantList × CoreSession σ
  | [], _, log, s => (log, s)
  | m :: rest, i, log, s =>
    let log1 := log ++ [QVariant.message m]
    if log1.length ≥ 5 then
      sendBacklogLoop id count rest (i + 1) []
        (s.emit (Event.backlogData id log1 (decide ((i : Int) ≥ (count : Int) - 1))))
    else
      sendBacklogLoop id count rest (i + 1) log1 s

/-- The function `CoreSession::sendBacklog`. -/
def sendBacklog (st : Storage σ) (s : CoreSession σ) (id : BufferInfo) (v1 v2 : QVariant) :
    Outcome σ :=
  let msglist : List Message :=
    if v1.isDateTime then []
    else st.requestMsgs s.storage id v1.toInt v2.toInt
  let r := sendBacklogLoop id msglist.length msglist 0 [] s
  if r.1.length > 0 then .returned (r.2.emit (Event.backlogData id r.1 true))
  else .returned r.2

/-- What a handler added to the trace of the state it started from. -/
def emitted (s : CoreSession σ) (o : Outcome σ) : List Event :=
  o.state.trace.drop s.trace.length

end CoreSession

/-- The packages among a list of events: message list and final flag of
every `backlogData`, in order. -/
def backlogChunks : List Event → List (QVariantList × Bool)
  | [] => []
  | Event.backlogData _ log final :: rest => (log, final) :: backlogChunks rest
  | _ :: rest => backlogChunks rest

/-- The calls of `logMessage` among a list of events, with the id returned. -/
def loggedMsgs : List Event → List (Message × MsgId)
  | [] => []
  | Event.logMessage msg result :: rest => (msg, result) :: loggedMsgs rest
  | _ :: rest => loggedMsgs rest

/-- The `ConnectedServers` list of a previous-state value. -/
def snapshotEntries (previousState : QVariant) : QVariantList :=
  (QVariantMap.value previousState.toMap "ConnectedServers").toList

/-- The network name recorded in an entry of the `ConnectedServers` list. -/
def entryNetwork (v : QVariant) : String :=
  (QVariantMap.value v.toMap "Network").toString

/-- The `State` value recorded in an entry of the `ConnectedServers` list. -/
def entryState (v : QVariant) : QVariant :=
  QVariantMap.value v.toMap "State"

/-- The `Networks` list of a snapshot made by `sessionState`. -/
def snapshotNetworks (snapshot : QVariant) : QVariantList :=
  (QVariantMap.value snapshot.toMap "Networks").toList

/-- The `backlogData` signal carrying a package. -/
def chunkEvent (id : BufferInfo) (c : QVariantList × Bool) : Event :=
  Event.backlogData id c.1 c.2

/-! ## A concrete storage and session, for checking the statements -/

/-- A storage whose state is the last message id it handed out: it knows the
networks `freenode` (1) and `oftc` (2), numbers buffers by network, and answers
a backlog request for ids `first .. last` with one message per id. -/
def exampleStorage : Storage Nat where
  getNetworkId := fun _ _ net =>
    if net = "freenode" then 1 else if net = "oftc" then 2 else 0
  getBufferInfo := fun n _ net buf =>
    (⟨7, if net = "freenode" then 1 else if net = "oftc" then 2 else 0, buf⟩, n)
  logMessage := fun n _ => (n + 1, n + 1)
  requestBuffers := fun _ _ => []
  requestMsgs := fun _ id first last =>
    (List.range (last - first + 1).toNat).map
      (fun k => (Message.new id 1 "hello" "alice!foo@bar" 0).setMsgId (first.toNat + k))

/-- A storage that cannot assign message ids: `logMessage` answers 0. -/
def failingStorage : Storage Nat where
  getNetworkId := exampleStorage.getNetworkId
  getBufferInfo := exampleStorage.getBufferInfo
  logMessage := fun n _ => (0, n)
  requestBuffers := exampleStorage.requestBuffers
  requestMsgs := exampleStorage.requestMsgs

/-- A fresh session of user 1 over empty settings. -/
def exampleSession : CoreSession Nat := CoreSession.new 1 0 ⟨[]⟩

/-- A buffer of network 1. -/
def exampleBuffer : BufferInfo := ⟨7, 1, "#chan"⟩

/-- The handle of network `freenode`, wired and started. -/
def exampleServer : Server :=
  (CoreSession.attachServer (Server.new 1 1 "freenode" QVariant.invalid)).start

/-- A session connected to `freenode` and `oftc`. -/
def exampleConnected : CoreSession Nat :=
  (CoreSession.connectToNetwork exampleStorage
    (CoreSession.connectToNetwork exampleStorage exampleSession "freenode"
      QVariant.invalid).state "oftc" QVariant.invalid).state

/-- A previous state naming `freenode` and `oftc` with their states, between
an entry without a name and an entry whose name does not resolve. -/
def examplePreviousState : QVariant :=
  QVariant.map [("ConnectedServers", QVariant.list [
    QVariant.map [("Network", QVariant.string ""), ("State", QVariant.int 0)],
    QVariant.map [("Network", QVariant.string "freenode"), ("State", QVariant.int 11)],
    QVariant.map [("Network", QVariant.string "nowhere"), ("State", QVariant.int 12)],
    QVariant.map [("Network", QVariant.string "oftc"), ("State", QVariant.int 13)]])]

/-- The flag constants as single bits: `Self` is bit 0, `PrivMsg` bit 1. -/
def exampleFlags : MessageFlags := ⟨2, 1⟩

/-! ## Backlog delivery -/

theorem backlogChunks_map_chunkEvent (id : BufferInfo) (cs : List (QVariantList × Bool)) :
    backlogChunks (cs.map (chunkEvent id)) = cs := by
  induction cs with
  | nil => rfl
  | cons c cs ih => simp [chunkEvent, backlogChunks, ih]

namespace CoreSession

variable {σ : Type}

/-- The loop of `sendBacklog`, started with fewer than five messages in the
package: it emits full packages only, keeps the order, and flags as final
exactly a package that ends the list. -/
theorem sendBacklogLoop_spec (id : BufferInfo) (count : Nat) :
    ∀ (rest : List Message) (i : Nat) (log : QVariantList) (s : CoreSession σ),
      log.length < 5 → i + rest.length = count →
      ∃ new : List (QVariantList × Bool),
        (sendBacklogLoop id count rest i log s).2
            = { s with trace := s.trace ++ new.map (chunkEvent id) } ∧
        (sendBacklogLoop id count rest i log s).1.length < 5 ∧
        (new.map (fun c => c.1)).flatten ++ (sendBacklogLoop id count rest i log s).1
            = log ++ rest.map QVariant.message ∧
        (∀ c ∈ new, c.1.length = 5) ∧
        new.map (fun c => c.2)
            = List.replicate (new.length - 1) false
              ++ (if new.isEmpty then []
                  else [(sendBacklogLoop id count rest i log s).1.isEmpty]) := by
  intro rest
  induction rest with
  | nil =>
    intro i log s hlog _
    exact ⟨[], by simp [sendBacklogLoop], by simpa [sendBacklogLoop] using hlog,
      by simp [sendBacklogLoop], by simp, by simp⟩
  | cons m rest ih =>
    intro i log s hlog hi
    have hi1 : i + 1 + rest.length = count := by
      rw [List.length_cons] at hi; omega
    have hl1 : (log ++ [QVariant.message m]).length = log.length + 1 := by simp
    by_cases h5 : (log ++ [QVariant.message m]).length ≥ 5
    · have hlen : (log ++ [QVariant.message m]).length = 5 := by omega
      obtain ⟨new, h1, h2, h3, h4, h5f⟩ :=
        ih (i + 1) []
          (s.emit (Event.backlogData id (log ++ [QVariant.message m])
            (decide ((i : Int) ≥ (count : Int) - 1)))) (by simp) hi1
      have hstep : sendBacklogLoop id count (m :: rest) i log s
          = sendBacklogLoop id count rest (i + 1) []
              (s.emit (Event.backlogData id (log ++ [QVariant.message m])
                (decide ((i : Int) ≥ (count : Int) - 1)))) := by
        simp only [sendBacklogLoop]; rw [if_pos h5]
      have hcount := congrArg List.length h3
      simp only [List.length_append, List.length_map, List.length_nil, Nat.zero_add] at hcount
      refine ⟨(log ++ [QVariant.message m], decide ((i : Int) ≥ (count : Int) - 1)) :: new,
        ?_, ?_, ?_, ?_, ?_⟩
      · rw [hstep, h1]; simp [emit, chunkEvent]
      · rw [hstep]; exact h2
      · rw [hstep]; simp at h3 ⊢; rw [h3]
      · intro c hc
        rcases List.mem_cons.mp hc with rfl | hc
        · exact hlen
        · exact h4 c hc
      · rw [hstep]
        generalize hr : sendBacklogLoop id count rest (i + 1) []
            (s.emit (Event.backlogData id (log ++ [QVariant.message m])
              (decide ((i : Int) ≥ (count : Int) - 1)))) = r at h5f hcount
        cases rest with
        | nil =>
          have hfin : (decide ((i : Int) ≥ (count : Int) - 1)) = true := by
            have hi2 : i + 1 + 0 = count := hi1
            exact decide_eq_true (by omega)
          rw [hfin]
          simp only [sendBacklogLoop] at hr
          subst hr
          cases new with
          | nil => simp
          | cons c cs =>
            have hc := h4 c (List.mem_cons_self _ _)
            simp only [List.map_cons, List.flatten_cons, List.length_append,
              List.length_nil] at hcount
            omega
        | cons m2 rest2 =>
          have hfin : (decide ((i : Int) ≥ (count : Int) - 1)) = false := by
            have hi2 : i + 1 + (rest2.length + 1) = count := hi1
            exact decide_eq_false (by omega)
          rw [hfin]
          cases new with
          | nil =>
            have hne : r.1.isEmpty = false := by
              cases hh : r.1 with
              | nil => rw [hh] at hcount; simp at hcount
              | cons _ _ => rfl
            simp [hne]
          | cons c cs =>
            simp only [List.map_cons, List.length_cons, Nat.add_sub_cancel, List.isEmpty_cons,
              Bool.false_eq_true, if_false] at h5f ⊢
            rw [h5f]
            simp [List.replicate_succ]
    · obtain ⟨new, h1, h2, h3, h4, h5f⟩ :=
        ih (i + 1) (log ++ [QVariant.message m]) s (by omega) hi1
      have hstep : sendBacklogLoop id count (m :: rest) i log s
          = sendBacklogLoop id count rest (i + 1) (log ++ [QVariant.message m]) s := by
        simp only [sendBacklogLoop]; rw [if_neg h5]
      refine ⟨new, ?_, ?_, ?_, h4, ?_⟩
      · rw [hstep, h1]
      · rw [hstep]; exact h2
      · rw [hstep, h3]; simp
      · rw [hstep]; exact h5f

/-- Without a date-time first argument `sendBacklog` returns, adds only
`backlogData` signals for `id` to the trace, and the packages are the stored
list cut into fives, the last one flagged. -/
theorem sendBacklog_spec (st : Storage σ) (s : CoreSession σ) (id : BufferInfo)
    (v1 v2 : QVariant) (h : v1.isDateTime = false) :
    ∃ chunks : List (QVariantList × Bool),
      sendBacklog st s id v1 v2
          = .returned { s with trace := s.trace ++ chunks.map (chunkEvent id) } ∧
      (chunks.map (fun c => c.1)).flatten
          = (st.requestMsgs s.storage id v1.toInt v2.toInt).map QVariant.message ∧
      chunks.map (fun c => c.1.length)
          = List.replicate ((st.requestMsgs s.storage id v1.toInt v2.toInt).length / 5) 5
            ++ (if (st.requestMsgs s.storage id v1.toInt v2.toInt).length % 5 = 0 then []
                else [(st.requestMsgs s.storage id v1.toInt v2.toInt).length % 5]) ∧
      chunks.map (fun c => c.2)
          = List.replicate (chunks.length - 1) false
            ++ (if chunks.isEmpty then [] else [true]) := by
  generalize hm : st.requestMsgs s.storage id v1.toInt v2.toInt = msgs
  obtain ⟨new, h1, h2, h3, h4, h5⟩ :=
    sendBacklogLoop_spec id msgs.length msgs 0 [] s (by simp) (by simp)
  have hsb : sendBacklog st s id v1 v2
      = if (sendBacklogLoop id msgs.length msgs 0 [] s).1.length > 0 then
          .returned ((sendBacklogLoop id msgs.length msgs 0 [] s).2.emit
            (Event.backlogData id (sendBacklogLoop id msgs.length msgs 0 [] s).1 true))
        else .returned (sendBacklogLoop id msgs.length msgs 0 [] s).2 := by
    simp only [sendBacklog, h, hm]; rfl
  generalize hr : sendBacklogLoop id msgs.length msgs 0 [] s = r at h1 h2 h3 h5 hsb
  have hsizes : new.map (fun c => c.1.length) = List.replicate new.length 5 := by
    rw [List.eq_replicate_iff]
    refine ⟨by simp, ?_⟩
    intro b hb
    obtain ⟨c, hc, rfl⟩ := List.mem_map.mp hb
    exact h4 c hc
  have hsum : ∀ l : List (QVariantList × Bool), (∀ c ∈ l, c.1.length = 5) →
      (l.map (fun c => c.1)).flatten.length = 5 * l.length := by
    intro l
    induction l with
    | nil => intro _; rfl
    | cons c cs ih =>
      intro hl
      have h0 := hl c (List.mem_cons_self _ _)
      have h1 := ih (fun d hd => hl d (List.mem_cons_of_mem _ hd))
      simp only [List.map_cons, List.flatten_cons, List.length_append, List.length_cons]
      omega
  have hcount := congrArg List.length h3
  simp only [List.length_append, List.length_map, List.length_nil, Nat.zero_add,
    List.nil_append] at hcount
  rw [hsum new h4] at hcount
  have hdiv : msgs.length / 5 = new.length := by omega
  have hmod : msgs.length % 5 = r.1.length := by omega
  by_cases hpos : r.1.length > 0
  · have hne : r.1.isEmpty = false := by
      cases hh : r.1 with
      | nil => rw [hh] at hpos; simp at hpos
      | cons _ _ => rfl
    refine ⟨new ++ [(r.1, true)], ?_, ?_, ?_, ?_⟩
    · rw [hsb, if_pos hpos, h1]; simp [emit, chunkEvent]
    · simp only [List.map_append, List.flatten_append, List.map_cons, List.map_nil,
        List.flatten_cons, List.flatten_nil, List.append_nil]
      simpa using h3
    · rw [hdiv, hmod, List.map_append, hsizes]
      have : ¬ r.1.length = 0 := by omega
      simp [this]
    · rw [List.map_append, h5, hne]
      cases new with
      | nil => simp
      | cons c cs =>
        simp only [List.length_cons, Nat.add_sub_cancel, List.isEmpty_cons, Bool.false_eq_true,
          if_false, List.map_cons, List.map_nil, List.length_append, List.length_nil]
        have : cs.length + 1 + 1 - 1 = cs.length + 1 := by omega
        simp [List.replicate_succ', ← List.replicate_succ]
  · have he : r.1.length = 0 := by omega
    have hemp : r.1.isEmpty = true := by
      cases hh : r.1 with
      | nil => rfl
      | cons _ _ => rw [hh] at he; simp at he
    refine ⟨new, ?_, ?_, ?_, ?_⟩
    · rw [hsb, if_neg hpos, h1]
    · have : r.1 = [] := List.length_eq_zero.mp he
      rw [this] at h3
      simpa using h3
    · rw [hdiv, hmod, hsizes]; simp [he]
    · rw [h5, hemp]

/-- What `sendBacklog` added to the trace, read back as packages. -/
theorem sendBacklog_emitted (st : Storage σ) (s : CoreSession σ) (id : BufferInfo)
    (v1 v2 : QVariant) (chunks : List (QVariantList × Bool))
    (h : sendBacklog st s id v1 v2
      = .returned { s with trace := s.trace ++ chunks.map (chunkEvent id) }) :
    emitted s (sendBacklog st s id v1 v2) = chunks.map (chunkEvent id) ∧
    backlogChunks (emitted s (sendBacklog st s id v1 v2)) = chunks := by
  have he : emitted s (sendBacklog st s id v1 v2) = chunks.map (chunkEvent id) := by
    rw [emitted, h]; simp [Outcome.state]
  exact ⟨he, by rw [he, backlogChunks_map_chunkEvent]⟩

/-- C1: for a numeric-range request, the message lists of the `backlogData`
packages that `sendBacklog` emits, concatenated in emission order, are exactly
the list storage returned; `sendBacklog` returns and emits nothing else. -/
theorem sendBacklog_concat_eq_storage (st : Storage σ) (s : CoreSession σ) (id : BufferInfo)
    (v1 v2 : QVariant) (h : v1.isDateTime = false) :
    (sendBacklog st s id v1 v2).isReturned = true ∧
    ((backlogChunks (emitted s (sendBacklog st s id v1 v2))).map (fun c => c.1)).flatten
      = (st.requestMsgs s.storage id v1.toInt v2.toInt).map QVariant.message ∧
    emitted s (sendBacklog st s id v1 v2)
      = (backlogChunks (emitted s (sendBacklog st s id v1 v2))).map (chunkEvent id) := by
  obtain ⟨chunks, h1, h2, _, _⟩ := sendBacklog_spec st s id v1 v2 h
  obtain ⟨he, hb⟩ := sendBacklog_emitted st s id v1 v2 chunks h1
  refine ⟨by rw [h1]; rfl, by rw [hb]; exact h2, by rw [hb]; exact he⟩

theorem sendBacklog_concat_eq_storage_witness :
    (QVariant.int 1).isDateTime = false ∧
    ((sendBacklog exampleStorage exampleSession exampleBuffer (QVariant.int 1)
        (QVariant.int 12)).isReturned = true ∧
      ((backlogChunks (emitted exampleSession (sendBacklog exampleStorage exampleSession
          exampleBuffer (QVariant.int 1) (QVariant.int 12)))).map (fun c => c.1)).flatten
        = (exampleStorage.requestMsgs exampleSession.storage exampleBuffer
            (QVariant.int 1).toInt (QVariant.int 12).toInt).map QVariant.message ∧
      emitted exampleSession (sendBacklog exampleStorage exampleSession exampleBuffer
          (QVariant.int 1) (QVariant.int 12))
        = (backlogChunks (emitted exampleSession (sendBacklog exampleStorage exampleSession
            exampleBuffer (QVariant.int 1) (QVariant.int 12)))).map (chunkEvent exampleBuffer)) :=
  ⟨rfl, sendBacklog_concat_eq_storage exampleStorage exampleSession exampleBuffer
    (QVariant.int 1) (QVariant.int 12) rfl⟩

/-- C2: for a numeric-range request whose storage result has `n` messages,
`sendBacklog` emits `ceil(n/5)` packages; every package but the last holds 5
messages, the last holds `n - 5*(ceil(n/5)-1)`, between 1 and 5; 12 messages
give packages of 5, 5, 2 and an empty result gives no package. -/
theorem sendBacklog_chunk_sizes (st : Storage σ) (s : CoreSession σ) (id : BufferInfo)
    (v1 v2 : QVariant) (n : Nat) (h : v1.isDateTime = false)
    (hn : (st.requestMsgs s.storage id v1.toInt v2.toInt).length = n) :
    ((backlogChunks (emitted s (sendBacklog st s id v1 v2))).map (fun c => c.1.length)).length
      = (n + 4) / 5 ∧
    (∀ k, k + 1 < (n + 4) / 5 →
      ((backlogChunks (emitted s (sendBacklog st s id v1 v2))).map
        (fun c => c.1.length))[k]? = some 5) ∧
    (0 < n →
      ((backlogChunks (emitted s (sendBacklog st s id v1 v2))).map
        (fun c => c.1.length)).getLast? = some (n - 5 * ((n + 4) / 5 - 1)) ∧
      1 ≤ n - 5 * ((n + 4) / 5 - 1) ∧ n - 5 * ((n + 4) / 5 - 1) ≤ 5) ∧
    (n = 12 →
      (backlogChunks (emitted s (sendBacklog st s id v1 v2))).map (fun c => c.1.length)
        = [5, 5, 2]) ∧
    (n = 0 → emitted s (sendBacklog st s id v1 v2) = []) := by
  obtain ⟨chunks, h1, _, h3, _⟩ := sendBacklog_spec st s id v1 v2 h
  obtain ⟨he, hb⟩ := sendBacklog_emitted st s id v1 v2 chunks h1
  rw [hn] at h3
  rw [hb, h3, he]
  refine ⟨?_, ?_, ?_, ?_, ?_⟩
  · by_cases hz : n % 5 = 0
    · simp [hz]; omega
    · simp [hz]; omega
  · intro k hk
    have hk5 : k < n / 5 := by omega
    rw [List.getElem?_append_left (by simpa using hk5)]
    simp [hk5]
  · intro hpos
    refine ⟨?_, by omega, by omega⟩
    by_cases hz : n % 5 = 0
    · have h5 : n / 5 = (n / 5 - 1) + 1 := by omega
      simp only [hz, if_true, List.append_nil]
      rw [h5, List.replicate_succ', List.getLast?_append]
      simp
      omega
    · simp only [hz, if_false]
      rw [List.getLast?_append]
      simp
      omega
  · intro h12
    subst h12
    rfl
  · intro h0
    subst h0
    have : chunks.map (fun c => c.1.length) = [] := by rw [h3]; rfl
    have hc : chunks = [] := by simpa using this
    rw [hc]; rfl

theorem sendBacklog_chunk_sizes_witness :
    ((QVariant.int 1).isDateTime = false ∧
      (exampleStorage.requestMsgs exampleSession.storage exampleBuffer
        (QVariant.int 1).toInt (QVariant.int 12).toInt).length = 12) ∧
    (backlogChunks (emitted exampleSession (sendBacklog exampleStorage exampleSession
        exampleBuffer (QVariant.int 1) (QVariant.int 12)))).map (fun c => c.1.length)
      = [5, 5, 2] :=
  ⟨⟨rfl, rfl⟩, (sendBacklog_chunk_sizes exampleStorage exampleSession exampleBuffer
    (QVariant.int 1) (QVariant.int 12) 12 rfl rfl).2.2.2.1 rfl⟩

/-- C3: for a non-empty numeric-range result, the `isFinal` flag is true on
the last package `sendBacklog` emits and false on every earlier one, whether
or not the result size is a multiple of 5. -/
theorem sendBacklog_final_flag (st : Storage σ) (s : CoreSession σ) (id : BufferInfo)
    (v1 v2 : QVariant) (h : v1.isDateTime = false)
    (hne : st.requestMsgs s.storage id v1.toInt v2.toInt ≠ []) :
    backlogChunks (emitted s (sendBacklog st s id v1 v2)) ≠ [] ∧
    (backlogChunks (emitted s (sendBacklog st s id v1 v2))).map (fun c => c.2)
      = List.replicate ((backlogChunks (emitted s (sendBacklog st s id v1 v2))).length - 1) false
        ++ [true] := by
  obtain ⟨chunks, h1, h2, _, h4⟩ := sendBacklog_spec st s id v1 v2 h
  obtain ⟨_, hb⟩ := sendBacklog_emitted st s id v1 v2 chunks h1
  rw [hb]
  have hc : chunks ≠ [] := by
    intro hc
    rw [hc] at h2
    simp at h2
    exact hne h2
  refine ⟨hc, ?_⟩
  rw [h4]
  cases chunks with
  | nil => exact absurd rfl hc
  | cons c cs => simp

theorem sendBacklog_final_flag_witness :
    ((QVariant.int 1).isDateTime = false ∧
      exampleStorage.requestMsgs exampleSession.storage exampleBuffer
        (QVariant.int 1).toInt (QVariant.int 10).toInt ≠ []) ∧
    (backlogChunks (emitted exampleSession (sendBacklog exampleStorage exampleSession
        exampleBuffer (QVariant.int 1) (QVariant.int 10)))).map (fun c => c.2)
      = [false, true] :=
  ⟨⟨rfl, by simp [exampleStorage, QVariant.toInt, List.range_succ]⟩,
    (sendBacklog_final_flag exampleStorage exampleSession exampleBuffer
      (QVariant.int 1) (QVariant.int 10) rfl
      (by simp [exampleStorage, QVariant.toInt, List.range_succ])).2⟩

end CoreSession

/-! ## The message pipeline -/

namespace CoreSession

variable {σ : Type}

/-- What `recvMessageFromServer` adds to the trace for a message of a
connection: the request for the buffer, the call of `logMessage`, and the
broadcast, unless the id is 0 and the build has assertions. -/
theorem recvMessageFromServer_emitted (st : Storage σ) (fl : MessageFlags) (assertions : Bool)
    (s : CoreSession σ)
    (srv : Server) (type : Nat) (target text sender : String) (flags : Nat)
    (key : String) (r : BufferInfo × σ) (l : MsgId × σ)
    (hkey : key = if (flags &&& fl.PrivMsg ≠ 0) ∧ ¬ (flags &&& fl.Self ≠ 0)
      then nickFromMask sender else target)
    (hr : r = st.getBufferInfo s.storage s.user srv.networkName key)
    (hl : l = st.logMessage r.2 (Message.new r.1 type text sender flags)) :
    emitted s (recvMessageFromServer st fl assertions s (some srv) type target text sender flags)
      = [Event.getBufferInfo s.user srv.networkName key r.1,
          Event.logMessage (Message.new r.1 type text sender flags) l.1]
        ++ (if assertions = true ∧ l.1 = 0 then []
            else [Event.displayMsg ((Message.new r.1 type text sender flags).setMsgId l.1)]) ∧
    (recvMessageFromServer st fl assertions s (some srv) type target text sender flags).isReturned
      = decide (¬ (assertions = true ∧ l.1 = 0)) := by
  have hunf : recvMessageFromServer st fl assertions s (some srv) type target text sender flags
      = if assertions = true ∧ l.1 = 0 then
          .aborted { s with
            storage := l.2
            trace := s.trace ++ [Event.getBufferInfo s.user srv.networkName key r.1]
              ++ [Event.logMessage (Message.new r.1 type text sender flags) l.1] }
        else
          .returned { s with
            storage := l.2
            trace := s.trace ++ [Event.getBufferInfo s.user srv.networkName key r.1]
              ++ [Event.logMessage (Message.new r.1 type text sender flags) l.1]
              ++ [Event.displayMsg ((Message.new r.1 type text sender flags).setMsgId l.1)] } := by
    subst hkey hr hl
    rfl
  rw [hunf]
  by_cases h0 : assertions = true ∧ l.1 = 0
  · rw [if_pos h0, if_pos h0]
    simp [h0, emitted, Outcome.state, Outcome.isReturned]
  · rw [if_neg h0, if_neg h0]
    simp [h0, emitted, Outcome.state, Outcome.isReturned]

/-- In a build with assertions: when `logMessage` answers 0 the handler stops
at `Q_ASSERT(msg.msgId())` and emits no `displayMsg`; every `displayMsg` it
emits carries the non-zero id that `logMessage` returned, and the call of
`logMessage` comes before it. -/
theorem recvMessageFromServer_asserting (st : Storage σ) (fl : MessageFlags)
    (s : CoreSession σ) (srv : Server) (type : Nat) (target text sender : String) (flags : Nat) :
    (∃ m0 sto, loggedMsgs
        (emitted s (recvMessageFromServer st fl true s (some srv) type target text sender flags))
      = [(m0, (st.logMessage sto m0).1)]) ∧
    (∀ m0, Event.logMessage m0 0 ∈
        emitted s (recvMessageFromServer st fl true s (some srv) type target text sender flags) →
      (∀ m, Event.displayMsg m ∉
        emitted s (recvMessageFromServer st fl true s (some srv) type target text sender flags)) ∧
      (recvMessageFromServer st fl true s (some srv) type target text sender flags).isReturned
        = false) ∧
    (∀ m, Event.displayMsg m ∈
        emitted s (recvMessageFromServer st fl true s (some srv) type target text sender flags) →
      m.msgId ≠ 0 ∧
      ∃ pre post m0,
        emitted s (recvMessageFromServer st fl true s (some srv) type target text sender flags)
          = pre ++ Event.logMessage m0 m.msgId :: post ∧
        (∀ m1, Event.displayMsg m1 ∉ pre) ∧
        post = [Event.displayMsg m] ∧
        m = m0.setMsgId m.msgId) := by
  obtain ⟨he, hret⟩ := recvMessageFromServer_emitted st fl true s srv type target text sender
    flags _ _ _ rfl rfl rfl
  rw [hret, he]
  generalize (if (flags &&& fl.PrivMsg ≠ 0) ∧ ¬ (flags &&& fl.Self ≠ 0)
    then nickFromMask sender else target) = key
  generalize st.getBufferInfo s.storage s.user srv.networkName key = r
  generalize hl : st.logMessage r.2 (Message.new r.1 type text sender flags) = l
  refine ⟨⟨Message.new r.1 type text sender flags, r.2, ?_⟩, ?_, ?_⟩
  · rw [hl]
    by_cases h0 : l.1 = 0 <;> simp [h0, loggedMsgs]
  · intro m0 hm0
    by_cases h0 : l.1 = 0
    · simp [h0]
    · simp [h0] at hm0
      exact absurd hm0.2.symm h0
  · intro m hm
    by_cases h0 : l.1 = 0
    · simp [h0] at hm
    · simp [h0] at hm
      subst hm
      refine ⟨h0, [Event.getBufferInfo s.user srv.networkName key r.1], _,
        Message.new r.1 type text sender flags, ?_, ?_, rfl, rfl⟩
      · simp [h0, Message.setMsgId]
      · intro m1 hm1
        simp at hm1

/-- In a build without assertions nothing stands between `logMessage` and the
broadcast: the handler returns, and when `logMessage` answers 0 the message is
broadcast with id 0. -/
theorem recvMessageFromServer_unchecked (st : Storage σ) (fl : MessageFlags)
    (s : CoreSession σ) (srv : Server) (type : Nat) (target text sender : String) (flags : Nat) :
    (recvMessageFromServer st fl false s (some srv) type target text sender flags).isReturned
      = true ∧
    ((∃ m0, Event.logMessage m0 0 ∈
        emitted s (recvMessageFromServer st fl false s (some srv) type target text
          sender flags)) →
      ∃ m, m.msgId = 0 ∧ Event.displayMsg m ∈
        emitted s (recvMessageFromServer st fl false s (some srv) type target text
          sender flags)) := by
  obtain ⟨he, hret⟩ := recvMessageFromServer_emitted st fl false s srv type target text sender
    flags _ _ _ rfl rfl rfl
  rw [hret, he]
  generalize (if (flags &&& fl.PrivMsg ≠ 0) ∧ ¬ (flags &&& fl.Self ≠ 0)
    then nickFromMask sender else target) = key
  generalize st.getBufferInfo s.storage s.user srv.networkName key = r
  generalize st.logMessage r.2 (Message.new r.1 type text sender flags) = l
  refine ⟨by simp, ?_⟩
  rintro ⟨m0, hm0⟩
  have hl0 : l.1 = 0 := by
    simp at hm0
    exact hm0.2.symm
  refine ⟨(Message.new r.1 type text sender flags).setMsgId l.1, by rw [hl0]; rfl, ?_⟩
  simp

/-- With a storage that cannot assign ids and a build with assertions, the
message is logged and not broadcast: the handler stops. -/
theorem recvMessageFromServer_failingStorage :
    emitted exampleSession (recvMessageFromServer failingStorage exampleFlags true
        exampleSession (some exampleServer) 1 "#chan" "hi" "alice!foo@bar" 0)
      = [Event.getBufferInfo 1 "freenode" "#chan" ⟨7, 1, "#chan"⟩,
          Event.logMessage (Message.new ⟨7, 1, "#chan"⟩ 1 "hi" "alice!foo@bar" 0) 0] ∧
    (recvMessageFromServer failingStorage exampleFlags true
        exampleSession (some exampleServer) 1 "#chan" "hi" "alice!foo@bar" 0).isReturned
      = false := by
  constructor <;> rfl

/-- C5: a message is broadcast without a valid id in a build without
assertions. With a storage whose `logMessage` answers 0,
`recvMessageFromServer` logs the message, then emits `displayMsg` for it with
id 0, and returns. -/
theorem recvMessageFromServer_broadcasts_id_zero :
    emitted exampleSession (recvMessageFromServer failingStorage exampleFlags false
        exampleSession (some exampleServer) 1 "#chan" "hi" "alice!foo@bar" 0)
      = [Event.getBufferInfo 1 "freenode" "#chan" ⟨7, 1, "#chan"⟩,
          Event.logMessage (Message.new ⟨7, 1, "#chan"⟩ 1 "hi" "alice!foo@bar" 0) 0,
          Event.displayMsg
            ((Message.new ⟨7, 1, "#chan"⟩ 1 "hi" "alice!foo@bar" 0).setMsgId 0)] ∧
    ((Message.new ⟨7, 1, "#chan"⟩ 1 "hi" "alice!foo@bar" 0).setMsgId 0).msgId = 0 ∧
    (recvMessageFromServer failingStorage exampleFlags false
        exampleSession (some exampleServer) 1 "#chan" "hi" "alice!foo@bar" 0).isReturned
      = true := by
  refine ⟨rfl, rfl, rfl⟩

end CoreSession

/-! ## The registry of connections -/

namespace CoreSession

variable {σ : Type}

/-- The two ways `connectToNetwork` ends for a resolved network. -/
theorem connectToNetwork_resolved (st : Storage σ) (s : CoreSession σ) (network : String)
    (previousState : QVariant) (h : getNetworkId st s network ≠ 0) :
    connectToNetwork st s network previousState
      = .returned
          ((if getNetworkId st s network ∉ s.servers then
              { s with
                servers := s.servers.insert (getNetworkId st s network)
                  (attachServer (Server.new s.userId (getNetworkId st s network) network
                    previousState)).start }
            else s).emit (Event.connectToIrc network)) := by
  simp only [connectToNetwork]
  rw [if_neg h]

/-- C6: calling `connectToNetwork` twice with a name that resolves to a
non-zero id leaves exactly one handle for that id: the second call changes
nothing in the registry, so the handle (and the previous state recorded in it)
is the one in place after the first call, whatever the second call passes;
`connectToIrc` is emitted by each call. -/
theorem connectToNetwork_twice (st : Storage σ) (s : CoreSession σ) (network : String)
    (ps1 ps2 : QVariant) (id : NetworkId) (o1 o2 : Outcome σ)
    (hid : getNetworkId st s network = id) (hne : id ≠ 0)
    (h1 : o1 = connectToNetwork st s network ps1)
    (h2 : o2 = connectToNetwork st o1.state network ps2) :
    o1.isReturned = true ∧ o2.isReturned = true ∧
    o2.state.servers = o1.state.servers ∧
    o2.state.servers.keys.count id = 1 ∧
    (id ∉ s.servers →
      o2.state.servers.lookup id
          = some (attachServer (Server.new s.user id network ps1)).start ∧
        o2.state.servers.keys.length = s.servers.keys.length + 1) ∧
    (id ∈ s.servers → o2.state.servers = s.servers) ∧
    emitted s o1 = [Event.connectToIrc network] ∧
    emitted o1.state o2 = [Event.connectToIrc network] ∧
    o2.state.trace = s.trace ++ [Event.connectToIrc network, Event.connectToIrc network] := by
  have e1 := connectToNetwork_resolved st s network ps1 (by rw [hid]; exact hne)
  rw [hid] at e1
  rw [← h1] at e1
  have hmem1 : id ∈ o1.state.servers := by
    rw [e1]
    by_cases hin : id ∈ s.servers
    · simp [Outcome.state, emit, hin]
    · simp [Outcome.state, emit, hin]
  have hid1 : getNetworkId st o1.state network = id := by
    rw [← hid, e1]
    by_cases hin : id ∈ s.servers <;> simp [Outcome.state, emit, hin, getNetworkId]
  have e2 := connectToNetwork_resolved st o1.state network ps2 (by rw [hid1]; exact hne)
  rw [hid1, ← h2] at e2
  have hs2 : o2.state = o1.state.emit (Event.connectToIrc network) := by
    rw [e2]
    show (if id ∉ o1.state.servers then _ else o1.state).emit _ = _
    rw [if_neg (not_not.mpr hmem1)]
  have hsrv : o2.state.servers = o1.state.servers := by rw [hs2]; rfl
  refine ⟨by rw [e1]; rfl, by rw [e2]; rfl, hsrv, ?_, ?_, ?_, ?_, ?_, ?_⟩
  · rw [hsrv]
    exact List.count_eq_one_of_mem (AList.keys_nodup _) (AList.mem_keys.mp hmem1)
  · intro hin
    rw [hsrv, e1]
    simp only [Outcome.state, emit, hin, not_false_eq_true, if_true]
    refine ⟨by rw [AList.lookup_insert]; rfl, ?_⟩
    rw [AList.keys_insert, List.erase_of_not_mem (fun hk => hin (AList.mem_keys.mpr hk))]
    rfl
  · intro hin
    rw [hsrv, e1]
    simp [Outcome.state, emit, hin]
  · rw [e1]
    by_cases hin : id ∈ s.servers <;> simp [emitted, Outcome.state, emit, hin]
  · rw [emitted, hs2]
    simp [emit]
  · rw [hs2, e1]
    by_cases hin : id ∈ s.servers <;> simp [Outcome.state, emit, hin]

theorem connectToNetwork_twice_witness :
    (getNetworkId exampleStorage exampleSession "freenode" = 1 ∧ (1 : NetworkId) ≠ 0) ∧
    (connectToNetwork exampleStorage
        (connectToNetwork exampleStorage exampleSession "freenode" (QVariant.int 5)).state
        "freenode" (QVariant.int 6)).state.servers.keys.count 1 = 1 ∧
    (connectToNetwork exampleStorage
        (connectToNetwork exampleStorage exampleSession "freenode" (QVariant.int 5)).state
        "freenode" (QVariant.int 6)).state.trace
      = exampleSession.trace ++ [Event.connectToIrc "freenode", Event.connectToIrc "freenode"] :=
  ⟨⟨rfl, by decide⟩,
    (connectToNetwork_twice exampleStorage exampleSession "freenode" (QVariant.int 5)
      (QVariant.int 6) 1 _ _ rfl (by decide) rfl rfl).2.2.2.1,
    (connectToNetwork_twice exampleStorage exampleSession "freenode" (QVariant.int 5)
      (QVariant.int 6) 1 _ _ rfl (by decide) rfl rfl).2.2.2.2.2.2.2.2⟩

/-- C7: for a network name that storage resolves to id 0, `connectToNetwork`
returns normally and is a no-op: registry, session data, settings and storage
are unchanged, only the warning is logged, and no `connectToIrc` is emitted. -/
theorem connectToNetwork_unresolved (st : Storage σ) (s : CoreSession σ) (network : String)
    (previousState : QVariant) (h : getNetworkId st s network = 0) :
    (connectToNetwork st s network previousState).isReturned = true ∧
    (connectToNetwork st s network previousState).state.servers = s.servers ∧
    (connectToNetwork st s network previousState).state.servers.keys = s.servers.keys ∧
    (connectToNetwork st s network previousState).state.sessionData = s.sessionData ∧
    (connectToNetwork st s network previousState).state.settings = s.settings ∧
    (connectToNetwork st s network previousState).state.storage = s.storage ∧
    emitted s (connectToNetwork st s network previousState) = [Event.qWarning network] ∧
    (∀ n, Event.connectToIrc n ∉ emitted s (connectToNetwork st s network previousState)) := by
  have e : connectToNetwork st s network previousState
      = .returned (s.emit (Event.qWarning network)) := by
    simp only [connectToNetwork]
    rw [if_pos h]
  rw [e]
  refine ⟨rfl, rfl, rfl, rfl, rfl, rfl, ?_, ?_⟩
  · simp [emitted, Outcome.state, emit]
  · intro n hn
    simp [emitted, Outcome.state, emit] at hn

theorem connectToNetwork_unresolved_witness :
    getNetworkId exampleStorage exampleSession "nowhere" = 0 ∧
    (connectToNetwork exampleStorage exampleSession "nowhere" QVariant.invalid).isReturned
      = true ∧
    (connectToNetwork exampleStorage exampleSession "nowhere" QVariant.invalid).state.servers.keys
      = [] :=
  ⟨by decide,
    (connectToNetwork_unresolved exampleStorage exampleSession "nowhere" QVariant.invalid
      (by decide)).1,
    (connectToNetwork_unresolved exampleStorage exampleSession "nowhere" QVariant.invalid
      (by decide)).2.2.1⟩

/-- The `Networks` list of `sessionState` is the list of registry keys. -/
theorem snapshotNetworks_sessionState (st : Storage σ) (s : CoreSession σ) :
    snapshotNetworks (sessionState st s) = s.servers.keys.map QVariant.uint := by
  simp [snapshotNetworks, sessionState, QVariant.toMap, QVariantMap.insert, QVariantMap.value,
    List.lookup, QVariant.toList]

/-- C10: for a network id present in the registry, `serverDisconnected`
returns, and the `Networks` list of the snapshot `sessionState` makes
afterwards does not contain the id and contains exactly the other ids that
were registered before. -/
theorem serverDisconnected_snapshot (st : Storage σ) (s : CoreSession σ) (id : NetworkId)
    (h : id ∈ s.servers) :
    (serverDisconnected s id).isReturned = true ∧
    QVariant.uint id ∉ snapshotNetworks (sessionState st (serverDisconnected s id).state) ∧
    (∀ n, QVariant.uint n ∈ snapshotNetworks (sessionState st (serverDisconnected s id).state)
      ↔ (n ≠ id ∧ n ∈ s.servers.keys)) ∧
    snapshotNetworks (sessionState st (serverDisconnected s id).state)
      = (s.servers.keys.erase id).map QVariant.uint := by
  obtain ⟨server, hsrv⟩ := Option.isSome_iff_exists.mp (AList.lookup_isSome.mpr h)
  have hnot : id ∉ s.servers.erase id := by
    rw [AList.mem_erase]; simp
  have e : serverDisconnected s id
      = .returned ({ s with servers := s.servers.erase id }.emit (Event.deleteLater server)) := by
    simp only [serverDisconnected]
    rw [if_neg (not_not.mpr h), hsrv]
    simp only [emit]
    rw [if_neg hnot]
  have hkeys : (serverDisconnected s id).state.servers.keys = s.servers.keys.erase id := by
    rw [e]; exact AList.keys_erase id s.servers
  have hmem : ∀ n, QVariant.uint n ∈
      snapshotNetworks (sessionState st (serverDisconnected s id).state)
        ↔ (n ≠ id ∧ n ∈ s.servers.keys) := by
    intro n
    rw [snapshotNetworks_sessionState, hkeys, List.mem_map]
    constructor
    · rintro ⟨k, hk, hkn⟩
      have : k = n := by injection hkn
      subst this
      exact ⟨fun hki => by
        subst hki
        exact (List.Nodup.not_mem_erase (AList.keys_nodup _)) hk, List.mem_of_mem_erase hk⟩
    · rintro ⟨hne, hk⟩
      exact ⟨n, (List.mem_erase_of_ne hne).mpr hk, rfl⟩
  refine ⟨by rw [e]; rfl, ?_, hmem, by rw [snapshotNetworks_sessionState, hkeys]⟩
  intro hc
  exact ((hmem id).mp hc).1 rfl

theorem serverDisconnected_snapshot_witness :
    (1 : NetworkId) ∈ exampleConnected.servers ∧
    snapshotNetworks (sessionState exampleStorage (serverDisconnected exampleConnected 1).state)
      = [QVariant.uint 2] :=
  ⟨by decide, (serverDisconnected_snapshot exampleStorage exampleConnected 1 (by decide)).2.2.2⟩

/-- One round of the restore loop returns; it leaves user and storage alone,
registers the entry when it names a resolvable network without a handle, and
leaves the registry alone when the entry has no name or does not resolve. -/
theorem restoreStep_returned (st : Storage σ) (s0 : CoreSession σ) (v : QVariant) :
    ∃ s1, restoreStep st (.returned s0) v = .returned s1 ∧
      s1.user = s0.user ∧ s1.storage = s0.storage ∧
      (entryNetwork v ≠ "" → getNetworkId st s0 (entryNetwork v) ≠ 0 →
        getNetworkId st s0 (entryNetwork v) ∉ s0.servers →
        s1.servers = s0.servers.insert (getNetworkId st s0 (entryNetwork v))
          (attachServer (Server.new s0.user (getNetworkId st s0 (entryNetwork v))
            (entryNetwork v) (entryState v))).start) ∧
      (¬ (entryNetwork v ≠ "" ∧ getNetworkId st s0 (entryNetwork v) ≠ 0) →
        s1.servers = s0.servers) := by
  have hstep : restoreStep st (.returned s0) v
      = if entryNetwork v ≠ "" then connectToNetwork st s0 (entryNetwork v) (entryState v)
        else .returned s0 := rfl
  rw [hstep]
  by_cases hnet : entryNetwork v ≠ ""
  · rw [if_pos hnet]
    by_cases hz : getNetworkId st s0 (entryNetwork v) = 0
    · refine ⟨s0.emit (Event.qWarning (entryNetwork v)), ?_, rfl, rfl, ?_, ?_⟩
      · simp only [connectToNetwork]; rw [if_pos hz]
      · intro _ h; exact absurd hz h
      · intro _; rfl
    · rw [connectToNetwork_resolved st s0 _ _ hz]
      by_cases hin : getNetworkId st s0 (entryNetwork v) ∈ s0.servers
      · refine ⟨_, rfl, ?_, ?_, ?_, ?_⟩
        · simp [emit, hin]
        · simp [emit, hin]
        · intro _ _ h; exact absurd hin h
        · intro h; exact absurd ⟨hnet, hz⟩ h
      · refine ⟨_, rfl, ?_, ?_, ?_, ?_⟩
        · simp [emit, hin]
        · simp [emit, hin]
        · intro _ _ _; simp [emit, hin, userId]
        · intro h; exact absurd ⟨hnet, hz⟩ h
  · rw [if_neg hnet]
    exact ⟨s0, rfl, rfl, rfl, fun h => absurd h hnet, fun _ => rfl⟩

/-- The restore loop over entries whose resolvable networks have pairwise
distinct ids, none of them registered yet: it returns, keeps the handles that
were there, and registers every resolvable entry with its own state. -/
theorem restoreLoop_spec (st : Storage σ) (usr : UserId) (sto : σ) :
    ∀ (entries : QVariantList) (s0 : CoreSession σ),
      s0.user = usr → s0.storage = sto →
      entries.Pairwise (fun v w =>
        entryNetwork v ≠ "" → st.getNetworkId sto usr (entryNetwork v) ≠ 0 →
        entryNetwork w ≠ "" → st.getNetworkId sto usr (entryNetwork w) ≠ 0 →
        st.getNetworkId sto usr (entryNetwork v) ≠ st.getNetworkId sto usr (entryNetwork w)) →
      (∀ v ∈ entries, entryNetwork v ≠ "" → st.getNetworkId sto usr (entryNetwork v) ≠ 0 →
        st.getNetworkId sto usr (entryNetwork v) ∉ s0.servers) →
      ∃ s1, entries.foldl (restoreStep st) (.returned s0) = .returned s1 ∧
        (∀ k, k ∈ s0.servers → s1.servers.lookup k = s0.servers.lookup k) ∧
        (∀ v ∈ entries, entryNetwork v ≠ "" → st.getNetworkId sto usr (entryNetwork v) ≠ 0 →
          s1.servers.lookup (st.getNetworkId sto usr (entryNetwork v))
            = some (attachServer (Server.new usr (st.getNetworkId sto usr (entryNetwork v))
                (entryNetwork v) (entryState v))).start) := by
  intro entries
  induction entries with
  | nil =>
    intro s0 _ _ _ _
    exact ⟨s0, rfl, fun _ _ => rfl, fun v hv => absurd hv (List.not_mem_nil v)⟩
  | cons v vs ih =>
    intro s0 hu hs hp hfresh
    obtain ⟨s1, hstep, hu1, hs1, hins, hskip⟩ := restoreStep_returned st s0 v
    have hid : getNetworkId st s0 (entryNetwork v) = st.getNetworkId sto usr (entryNetwork v) := by
      simp [getNetworkId, hu, hs]
    rw [hid] at hins hskip
    rw [hu] at hins
    rw [List.pairwise_cons] at hp
    by_cases hvalid : entryNetwork v ≠ "" ∧ st.getNetworkId sto usr (entryNetwork v) ≠ 0
    · have hnew := hfresh v (List.mem_cons_self _ _) hvalid.1 hvalid.2
      have hsrv := hins hvalid.1 hvalid.2 hnew
      obtain ⟨s2, hfold, hkeep, hreg⟩ := ih s1 (by rw [hu1, hu]) (by rw [hs1, hs]) hp.2
        (by
          intro w hw hwn hwz hin
          rw [hsrv, AList.mem_insert] at hin
          rcases hin with heq | hin
          · exact hp.1 w hw hvalid.1 hvalid.2 hwn hwz heq.symm
          · exact hfresh w (List.mem_cons_of_mem _ hw) hwn hwz hin)
      refine ⟨s2, by rw [List.foldl_cons, hstep]; exact hfold, ?_, ?_⟩
      · intro k hk
        have hne : k ≠ st.getNetworkId sto usr (entryNetwork v) := by
          intro hkv; rw [hkv] at hk; exact hnew hk
        rw [hkeep k (by rw [hsrv, AList.mem_insert]; exact Or.inr hk), hsrv,
          AList.lookup_insert_ne hne]
      · intro w hw hwn hwz
        rcases List.mem_cons.mp hw with rfl | hw
        · rw [hkeep _ (by rw [hsrv, AList.mem_insert]; exact Or.inl rfl), hsrv,
            AList.lookup_insert]
        · exact hreg w hw hwn hwz
    · have hsrv := hskip hvalid
      obtain ⟨s2, hfold, hkeep, hreg⟩ := ih s1 (by rw [hu1, hu]) (by rw [hs1, hs]) hp.2
        (by
          intro w hw hwn hwz
          rw [hsrv]
          exact hfresh w (List.mem_cons_of_mem _ hw) hwn hwz)
      refine ⟨s2, by rw [List.foldl_cons, hstep]; exact hfold, ?_, ?_⟩
      · intro k hk
        rw [hkeep k (by rw [hsrv]; exact hk), hsrv]
      · intro w hw hwn hwz
        rcases List.mem_cons.mp hw with rfl | hw
        · exact absurd ⟨hwn, hwz⟩ hvalid
        · exact hreg w hw hwn hwz

/-- C8: restoring a previous state into a session with an empty registry
returns, and every entry of its `ConnectedServers` list whose network name is
non-empty and resolves to a non-zero id (these ids pairwise distinct) is in the
registry afterwards, with a handle created from the entry's own `State`;
entries with an empty or unresolvable name do not stop the others. -/
theorem restoreState_registers (st : Storage σ) (s : CoreSession σ) (previousState : QVariant)
    (hempty : s.servers = ∅)
    (hdist : (snapshotEntries previousState).Pairwise (fun v w =>
      entryNetwork v ≠ "" → getNetworkId st s (entryNetwork v) ≠ 0 →
      entryNetwork w ≠ "" → getNetworkId st s (entryNetwork w) ≠ 0 →
      getNetworkId st s (entryNetwork v) ≠ getNetworkId st s (entryNetwork w))) :
    (restoreState st s previousState).isReturned = true ∧
    ∀ v ∈ snapshotEntries previousState,
      entryNetwork v ≠ "" → getNetworkId st s (entryNetwork v) ≠ 0 →
      (restoreState st s previousState).state.servers.lookup (getNetworkId st s (entryNetwork v))
        = some (attachServer (Server.new s.user (getNetworkId st s (entryNetwork v))
            (entryNetwork v) (entryState v))).start := by
  obtain ⟨s1, hfold, _, hreg⟩ := restoreLoop_spec st s.user s.storage
    (snapshotEntries previousState) s rfl rfl hdist
    (by intro v _ _ _ hin; rw [hempty] at hin; exact (AList.not_mem_empty _) hin)
  by_cases hc : QVariantMap.contains previousState.toMap "ConnectedServers" = true
  · have hrs : restoreState st s previousState = .returned s1 := by
      rw [← hfold]
      simp only [restoreState]
      rw [if_pos hc]
      rfl
    rw [hrs]
    exact ⟨rfl, hreg⟩
  · have hrs : restoreState st s previousState = .returned s := by
      simp only [restoreState]
      rw [if_neg hc]
    have hnil : snapshotEntries previousState = [] := by
      simp only [QVariantMap.contains, Bool.not_eq_true, Option.not_isSome,
        Option.isNone_iff_eq_none] at hc
      simp [snapshotEntries, QVariantMap.value, hc, QVariant.toList]
    rw [hrs, hnil]
    exact ⟨rfl, fun v hv => absurd hv (List.not_mem_nil v)⟩

theorem restoreState_registers_witness :
    (exampleSession.servers = ∅ ∧
      (snapshotEntries examplePreviousState).Pairwise (fun v w =>
        entryNetwork v ≠ "" → getNetworkId exampleStorage exampleSession (entryNetwork v) ≠ 0 →
        entryNetwork w ≠ "" → getNetworkId exampleStorage exampleSession (entryNetwork w) ≠ 0 →
        getNetworkId exampleStorage exampleSession (entryNetwork v)
          ≠ getNetworkId exampleStorage exampleSession (entryNetwork w))) ∧
    (restoreState exampleStorage exampleSession examplePreviousState).state.servers.lookup 1
      = some (attachServer (Server.new 1 1 "freenode" (QVariant.int 11))).start ∧
    (restoreState exampleStorage exampleSession examplePreviousState).state.servers.lookup 2
      = some (attachServer (Server.new 1 2 "oftc" (QVariant.int 13))).start :=
  ⟨⟨rfl, by decide⟩,
    (restoreState_registers exampleStorage exampleSession examplePreviousState rfl
      (by decide)).2
      (QVariant.map [("Network", QVariant.string "freenode"), ("State", QVariant.int 11)])
      (List.Mem.tail _ (List.Mem.head _)) (by decide) (by decide),
    (restoreState_registers exampleStorage exampleSession examplePreviousState rfl
      (by decide)).2
      (QVariant.map [("Network", QVariant.string "oftc"), ("State", QVariant.int 13)])
      (List.Mem.tail _ (List.Mem.tail _ (List.Mem.tail _ (List.Mem.head _))))
      (by decide) (by decide)⟩

end CoreSession

/-! ## Session data -/

namespace QVariantMap

theorem lookup_insert_self (m : QVariantMap) (key : String) (data : QVariant) :
    (insert m key data).lookup key = some data := by
  induction m with
  | nil => simp [insert, List.lookup]
  | cons e rest ih =>
    obtain ⟨k, v⟩ := e
    by_cases hk : k = key
    · simp [insert, hk, List.lookup]
    · have hb : (key == k) = false := by
        simpa using fun h : key = k => hk h.symm
      simp only [insert, if_neg hk, List.lookup, hb]
      exact ih

theorem lookup_insert_other (m : QVariantMap) (key other : String) (data : QVariant)
    (h : other ≠ key) : (insert m key data).lookup other = m.lookup other := by
  induction m with
  | nil =>
    have hb : (other == key) = false := by simpa using h
    simp [insert, List.lookup, hb]
  | cons e rest ih =>
    obtain ⟨k, v⟩ := e
    by_cases hk : k = key
    · subst hk
      have hb : (other == k) = false := by simpa using h
      simp [insert, List.lookup, hb]
    · simp only [insert, if_neg hk, List.lookup]
      cases hok : other == k with
      | true => rfl
      | false => exact ih

/-- Writing a run of keys into a map: a key of the run reads back the value
written for it, any other key reads as before. -/
theorem lookup_foldl_insert (f : String → QVariant) (keys : List String) :
    ∀ (m : QVariantMap) (key : String),
      (keys.foldl (fun m k => insert m k (f k)) m).lookup key
        = if key ∈ keys then some (f key) else m.lookup key := by
  induction keys with
  | nil => intro m key; simp
  | cons k ks ih =>
    intro m key
    rw [List.foldl_cons, ih]
    by_cases hks : key ∈ ks
    · simp [hks]
    · by_cases hk : key = k
      · subst hk
        simp [hks, lookup_insert_self]
      · simp [hks, hk, lookup_insert_other _ _ _ _ hk]

end QVariantMap

namespace QSettings

theorem value_setValue (s : QSettings) (group key : String) (data : QVariant) :
    (s.setValue group key data).value group key = data := by
  simp [value, setValue, List.lookup]

theorem mem_allKeys_setValue (s : QSettings) (group key : String) (data : QVariant) :
    key ∈ (s.setValue group key data).allKeys group := by
  simp [allKeys, setValue, List.filter]

end QSettings

namespace CoreSession

variable {σ : Type}

/-- C9: after `storeSessionData(k, v)`, `retrieveSessionData(k, d)` returns
`v`, in the session itself and in a fresh session constructed afterwards for
the same user over the settings the store wrote through to. -/
theorem sessionData_roundtrip (s : CoreSession σ) (k : String) (v d : QVariant) (sto : σ) :
    (storeSessionData s k v).isReturned = true ∧
    retrieveSessionData (storeSessionData s k v).state k d = v ∧
    retrieveSessionData
      (CoreSession.new s.user sto (storeSessionData s k v).state.settings) k d = v := by
  refine ⟨rfl, ?_, ?_⟩
  · have h : (storeSessionData s k v).state.sessionData.lookup k = some v :=
      QVariantMap.lookup_insert_self _ _ _
    simp [retrieveSessionData, QVariantMap.contains, QVariantMap.value, h]
  · have hset : (storeSessionData s k v).state.settings
        = s.settings.setValue (sessionDataGroup s.user) k v := rfl
    have h : (CoreSession.new s.user sto (storeSessionData s k v).state.settings).sessionData.lookup k
        = some v := by
      rw [hset]
      simp only [CoreSession.new]
      rw [QVariantMap.lookup_foldl_insert
        (fun key => (s.settings.setValue (sessionDataGroup s.user) k v).value
          (sessionDataGroup s.user) key)]
      rw [if_pos (QSettings.mem_allKeys_setValue _ _ _ _), QSettings.value_setValue]
    simp [retrieveSessionData, QVariantMap.contains, QVariantMap.value, h]

/-- Storing 42 under `x` and reading it back, before and after a reload. -/
theorem sessionData_example :
    retrieveSessionData (storeSessionData exampleSession "x" (QVariant.int 42)).state "x"
        QVariant.invalid = QVariant.int 42 ∧
    retrieveSessionData
      (CoreSession.new 1 0
        (storeSessionData exampleSession "x" (QVariant.int 42)).state.settings) "x"
        QVariant.invalid = QVariant.int 42 := by
  constructor <;> rfl

end CoreSession

end Quassel
